import Mathlib

/-!
# Verification of the property-report service (app.py / main.py)

Shallow embedding of the pure data-transformation logic of the FastAPI
reporting service: the comparison filtering of `get_property`
(app.py lines 36-58 / main.py lines 60-83) and the CSV assembly of
`generate_csv_report` (main.py lines 112-256).  HTTP fetches are modelled
by passing the decoded upstream JSON collections as explicit arguments;
all theorems therefore speak about the transformation applied to fixed,
already-fetched data.

The dynamic values of Python are modelled by `PyVal` (for the fields where the
code performs dynamic checks: `initial_id`, `Selected`) and by `Cell`
(for fields that are only copied into CSV cells).  JSON numbers that the
code treats arithmetically (`sold_amount`) are modelled as exact
rationals; `null` and a missing key are collapsed into `Option.none`
where the code treats them identically (`dict.get` with a falsy check,
or a cell that `csv.writer` renders as the empty string either way).
-/

/-- A dynamic (Python/JSON) value as it can appear in the fields the code
inspects dynamically.  JSON numbers on these fields are integral ids, so
they are modelled by `int`. -/
inductive PyVal where
  | none : PyVal
  | bool : Bool → PyVal
  | int : Int → PyVal
  | str : String → PyVal
deriving DecidableEq, Repr

/-- A CSV cell as handed to `csv.writer`: either a string (with a missing
field already defaulted to `""`, as `comp.get(key, "")` does, and `None`
rendered as `""`, as `csv.writer` does) or a number. -/
inductive Cell where
  | str : String → Cell
  | num : ℚ → Cell
deriving DecidableEq, Repr

/-- A record of the `valuations_property_comparisons` collection, with the
fields `generate_csv_report` and `get_property` read.  `sold_amount` is
`none` when the field is missing or `null`; `sales_date` likewise. -/
structure Comp where
  id : Int
  initial_id : PyVal
  Selected : PyVal
  initial_address : Option String
  sold_amount : Option ℚ
  sales_date : Option Int
  address : Cell
  bedrooms : Cell
  bath : Cell
  floor_size_value : Cell
  most_recent_url : Cell
deriving DecidableEq, Repr

/-- A record of the `valuations_property` collection, with the fields
`generate_csv_report` reads.  `address` is accessed directly
(`prop["address"]`), the descriptive fields through `.get(key, "")`,
so they are pre-defaulted cells. -/
structure SourceProp where
  address : String
  bedrooms : Cell
  bath : Cell
  square_feet : Cell
  appraisal_value : Cell
deriving DecidableEq, Repr

/-- A record of the `ripos_valuations_user_reports` collection.
`property_ids` is `none` when the key is missing or `null`
(both make `selected_report.get("property_ids", [])` / the falsy test
take the 404 branch exactly as the empty list does). -/
structure UserReport where
  id : Int
  user_id : String
  property_ids : Option (List Int)
deriving DecidableEq, Repr

/-! ## Python `int(...)` coercion

`int(comparison.get("initial_id"))` succeeds on `bool` and `int` values,
parses strings (optional surrounding whitespace, optional sign, digits
with single underscores strictly between digits), and raises
`TypeError`/`ValueError` otherwise — which the code catches and turns
into a skip. -/

/-- Characters `str.strip()` / `int(str)` treat as surrounding whitespace. -/
def isPySpace (c : Char) : Bool :=
  c = ' ' || c = '\t' || c = '\n' || c = '\r' || c = '\x0b' || c = '\x0c'

/-- After a digit: the rest of a Python integer literal body, where an
underscore must be followed by a digit. -/
def digitsTail : List Char → Bool
  | [] => true
  | '_' :: rest =>
      match rest with
      | [] => false
      | c :: rest2 => c.isDigit && digitsTail rest2
  | c :: rest => c.isDigit && digitsTail rest

/-- A nonempty digit run with single underscores between digits. -/
def digitsBody : List Char → Bool
  | [] => false
  | c :: rest => c.isDigit && digitsTail rest

/-- Numeric value of the digit characters, underscores skipped. -/
def digitsValue (cs : List Char) : Nat :=
  cs.foldl (fun acc c => if c.isDigit then 10 * acc + (c.toNat - '0'.toNat) else acc) 0

/-- Python `int(s)` on a string: strip whitespace, optional sign, digits. -/
def parseIntString (s : String) : Option Int :=
  let cs := (s.toList.dropWhile isPySpace).reverse.dropWhile isPySpace |>.reverse
  match cs with
  | '+' :: rest => if digitsBody rest then some (digitsValue rest) else Option.none
  | '-' :: rest => if digitsBody rest then some (-(digitsValue rest : Int)) else Option.none
  | _ => if digitsBody cs then some (digitsValue cs) else Option.none

/-- Python `int(v)` on a dynamic value: `none` models the raised
`TypeError`/`ValueError` that the code catches with `continue`. -/
def coerceInt : PyVal → Option Int
  | PyVal.none => Option.none
  | PyVal.bool b => some (if b then 1 else 0)
  | PyVal.int n => some n
  | PyVal.str s => parseIntString s

/-- Python `v == True` for a dynamic value: `True == True` and
`1 == True` hold, everything else compares unequal. -/
def pyEqTrue : PyVal → Bool
  | PyVal.bool b => b
  | PyVal.int n => n = 1
  | _ => false

/-! ## Record Joiner: `selectComparisons`

The Step-3 filtering loop of `get_property` (app.py lines 36-50,
main.py lines 60-75): iterate the comparisons, coerce `initial_id`,
`continue` on coercion failure, append when the coerced id matches and
`Selected == True`. -/

def selectComparisons (initial_id : Int) : List Comp → List Comp
  | [] => []
  | c :: rest =>
    match coerceInt c.initial_id with
    | Option.none => selectComparisons initial_id rest
    | some n =>
      if n = initial_id ∧ pyEqTrue c.Selected then
        c :: selectComparisons initial_id rest
      else
        selectComparisons initial_id rest

/-- The retention rule of the spec, stated from its words: a record is kept iff
its coerced `initial_id` equals the source id and its selected flag is
true. -/
def specRetains (initial_id : Int) (c : Comp) : Bool :=
  coerceInt c.initial_id = some initial_id && pyEqTrue c.Selected

/-- The filtering loop is `List.filter` of the retention rule. -/
lemma selectComparisons_filter_eq (initial_id : Int) (comps : List Comp) :
    selectComparisons initial_id comps = comps.filter (specRetains initial_id) := by
  induction comps with
    | nil => rfl
    | cons c rest ih =>
      rw [selectComparisons]
      rcases h : coerceInt c.initial_id with _ | n
      · rw [List.filter_cons]
        simp [specRetains, h, ih]
      · dsimp only
        by_cases hsel : n = initial_id ∧ pyEqTrue c.Selected
        · rw [if_pos hsel, List.filter_cons, ih]
          simp [specRetains, h, hsel.1, hsel.2]
        · rw [if_neg hsel, List.filter_cons, ih]
          have hsp : specRetains initial_id c = false := by
            simp only [specRetains, h]
            by_cases h1 : n = initial_id
            · subst h1
              have h2 : pyEqTrue c.Selected = false := by
                rcases Bool.eq_false_or_eq_true (pyEqTrue c.Selected) with ht | hf
                · exact absurd ⟨rfl, ht⟩ hsel
                · exact hf
              simp [h2]
            · simp [h1]
          rw [hsp]
          simp

/-- The filtering loop yields a sublist of its input: output order is
input order, nothing is re-sorted. -/
lemma selectComparisons_sublist (initial_id : Int) (comps : List Comp) :
    (selectComparisons initial_id comps).Sublist comps := by
  rw [selectComparisons_filter_eq]
  exact List.filter_sublist comps

/-- Claim C1: For every source id and every list of comparison records,
`selectComparisons` returns exactly those records whose `initial_id`,
after integer coercion, equals the source id and whose selected flag is
true (`selected == True`), and the output order matches the input order:
it equals `List.filter` of the retention rule (which keeps exactly the
satisfying records in input order) and is a sublist of the input. -/
theorem selectComparisons_spec (initial_id : Int) (comps : List Comp) :
    selectComparisons initial_id comps = comps.filter (specRetains initial_id) ∧
    (selectComparisons initial_id comps).Sublist comps :=
  ⟨selectComparisons_filter_eq initial_id comps,
   selectComparisons_sublist initial_id comps⟩

/-- Claim C4: A comparison record whose `initial_id` fails integer coercion
is excluded from the output of `selectComparisons` regardless of its
selected flag — silently: `selectComparisons` is a total function on the
whole record list (the `except` around `int(...)` turns the coercion
failure into a `continue`, never an error for the request). -/
theorem unparseable_initial_id_excluded (initial_id : Int)
    (comps : List Comp) (c : Comp)
    (h : coerceInt c.initial_id = Option.none) :
    c ∉ selectComparisons initial_id comps := by
  rw [selectComparisons_filter_eq]
  intro hmem
  have := List.of_mem_filter hmem
  simp [specRetains, h] at this

/-- Concrete instance of C4: a record whose `initial_id` is the
unparseable string `"abc"` is excluded even though its `Selected` flag
is `True` and the id it would name matches. -/
theorem unparseable_initial_id_excluded_witness :
    coerceInt (PyVal.str "abc") = Option.none ∧
    ({ id := 1, initial_id := PyVal.str "abc", Selected := PyVal.bool true,
       initial_address := some "a", sold_amount := Option.none,
       sales_date := Option.none, address := Cell.str "", bedrooms := Cell.str "",
       bath := Cell.str "", floor_size_value := Cell.str "",
       most_recent_url := Cell.str "" } : Comp) ∉
      selectComparisons 7
        [{ id := 1, initial_id := PyVal.str "abc", Selected := PyVal.bool true,
           initial_address := some "a", sold_amount := Option.none,
           sales_date := Option.none, address := Cell.str "", bedrooms := Cell.str "",
           bath := Cell.str "", floor_size_value := Cell.str "",
           most_recent_url := Cell.str "" }] :=
  ⟨by decide,
   unparseable_initial_id_excluded 7 _ _ (by decide)⟩

/-! ## Record Joiner: `averageSoldAmount`

main.py lines 205-209: collect `comp["sold_amount"]` over the records
where `comp.get("sold_amount")` is truthy (present, non-null, nonzero),
then `sum / len` when the list is nonempty, else `0`. -/

/-- The list comprehension of line 206-208. -/
def soldAmounts (comps : List Comp) : List ℚ :=
  comps.filterMap (fun c =>
    match c.sold_amount with
    | some q => if q ≠ 0 then some q else Option.none
    | Option.none => Option.none)

/-- Line 209: `sum(...) / len(...) if sold_amounts else 0`. -/
def averageSoldAmount (comps : List Comp) : ℚ :=
  let l := soldAmounts comps
  if l.isEmpty then 0 else l.sum / l.length

/-- The usability rule of the spec: `sold_amount` present and truthy
(zero/null/missing excluded). -/
def usableSoldAmount (c : Comp) : Bool :=
  match c.sold_amount with
  | some q => q ≠ 0
  | Option.none => false

/-- A `filterMap` whose function is "keep-and-transform under a test" is
the `map` of the transform over the `filter` of the test. -/
lemma filterMap_eq_map_filter {α β : Type} (p : α → Bool) (g : α → β)
    (f : α → Option β) (hf : ∀ a, f a = if p a then some (g a) else Option.none)
    (l : List α) :
    l.filterMap f = (l.filter p).map g := by
  induction l with
  | nil => rfl
  | cons a l ih =>
    rw [List.filterMap_cons, List.filter_cons, hf a]
    by_cases hp : p a
    · simp [hp, ih]
    · simp [hp, ih]

lemma soldAmounts_eq_map_filter (comps : List Comp) :
    soldAmounts comps =
      (comps.filter usableSoldAmount).map (fun c => c.sold_amount.getD 0) := by
  refine filterMap_eq_map_filter usableSoldAmount _ _ (fun c => ?_) comps
  rcases hs : c.sold_amount with _ | q
  · simp [usableSoldAmount, hs]
  · by_cases hq : q = 0
    · simp [usableSoldAmount, hs, hq]
    · simp [usableSoldAmount, hs, hq]

/-- Claim C2: `averageSoldAmount` is the arithmetic mean of `sold_amount`
over exactly the records where the field is present and truthy, and is
the defined value `0` when no record has a usable `sold_amount`. -/
theorem averageSoldAmount_spec (comps : List Comp) :
    averageSoldAmount comps =
      if (comps.filter usableSoldAmount).length = 0 then 0
      else ((comps.filter usableSoldAmount).map (fun c => c.sold_amount.getD 0)).sum /
             ((comps.filter usableSoldAmount).length : ℚ) := by
  simp only [averageSoldAmount, soldAmounts_eq_map_filter]
  by_cases h : (comps.filter usableSoldAmount).length = 0
  · simp [List.isEmpty_iff, List.length_eq_zero.mp h]
  · have hne : ¬ ((comps.filter usableSoldAmount).map
        (fun c => c.sold_amount.getD 0)).isEmpty = true := by
      simp only [List.isEmpty_iff]
      intro hcon
      exact h (by simpa using congrArg List.length hcon)
    rw [if_neg hne, if_neg h]
    simp

/-! ## Record Joiner: `groupByAddress`

main.py lines 152-157: a loop over the records building a dict with
`setdefault(initial_address, []).append(comp)`.  A Python dict iterates
in insertion order, so the dict is modelled as an association list:
`setdefault(...).append` appends to the existing group in place or adds
a new group at the end. -/

/-- Truthy `initial_address` (`if initial_address:`): the key under which
a record is grouped, or `none` when the record is dropped. -/
def addrKey (c : Comp) : Option String :=
  match c.initial_address with
  | some a => if a = "" then Option.none else some a
  | Option.none => Option.none

/-- Python `dict.setdefault(a, []).append(c)` on an insertion-ordered dict. -/
def insertGroup (groups : List (String × List Comp)) (a : String) (c : Comp) :
    List (String × List Comp) :=
  match groups with
  | [] => [(a, [c])]
  | (k, v) :: rest =>
    if k = a then (k, v ++ [c]) :: rest else (k, v) :: insertGroup rest a c

/-- The grouping loop of main.py lines 153-157. -/
def groupByAddress (comps : List Comp) : List (String × List Comp) :=
  comps.foldl (fun groups c =>
    match addrKey c with
    | some a => insertGroup groups a c
    | Option.none => groups) []

/-- Modelled from the spec: the addresses of the records, each listed
once, in first-seen order. -/
def firstSeenKeys (comps : List Comp) : List String :=
  comps.foldl (fun acc c =>
    match addrKey c with
    | some a => if a ∈ acc then acc else acc ++ [a]
    | Option.none => acc) []

/-- Modelled from the spec: for every address in first-seen order, the
input-order list of exactly the records grouped under it. -/
def groupByAddressSpec (comps : List Comp) : List (String × List Comp) :=
  (firstSeenKeys comps).map
    (fun a => (a, comps.filter (fun c => addrKey c = some a)))

lemma insertGroup_of_not_mem (groups : List (String × List Comp))
    (a : String) (c : Comp) (h : a ∉ groups.map Prod.fst) :
    insertGroup groups a c = groups ++ [(a, [c])] := by
  induction groups with
  | nil => rfl
  | cons g rest ih =>
    obtain ⟨k, v⟩ := g
    simp only [List.map_cons, List.mem_cons] at h
    push_neg at h
    rw [insertGroup, if_neg (fun hk => h.1 hk.symm), ih h.2]
    simp

lemma insertGroup_map_of_mem (keys : List String) (g : String → List Comp)
    (a : String) (c : Comp) (hnd : keys.Nodup) (hmem : a ∈ keys) :
    insertGroup (keys.map (fun k => (k, g k))) a c =
      keys.map (fun k => (k, if k = a then g k ++ [c] else g k)) := by
  induction keys with
  | nil => simp at hmem
  | cons k rest ih =>
    rw [List.map_cons, List.map_cons, insertGroup]
    by_cases hk : k = a
    · subst hk
      rw [if_pos rfl, if_pos rfl]
      have hnot : k ∉ rest := (List.nodup_cons.mp hnd).1
      have : rest.map (fun x => (x, if x = k then g x ++ [c] else g x)) =
          rest.map (fun x => (x, g x)) := by
        apply List.map_congr_left
        intro x hx
        have hxk : x ≠ k := fun hxe => hnot (hxe ▸ hx)
        simp [hxk]
      rw [this]
    · rw [if_neg hk, if_neg hk]
      rcases List.mem_cons.mp hmem with he | hr
      · exact absurd he.symm hk
      · rw [ih (List.nodup_cons.mp hnd).2 hr]

lemma mem_firstSeenKeys_aux (comps : List Comp) (acc : List String)
    (a : String) :
    a ∈ comps.foldl (fun acc c =>
      match addrKey c with
      | some a => if a ∈ acc then acc else acc ++ [a]
      | Option.none => acc) acc ↔
    a ∈ acc ∨ ∃ c ∈ comps, addrKey c = some a := by
  induction comps generalizing acc with
  | nil => simp
  | cons c rest ih =>
    rw [List.foldl_cons]
    rcases h : addrKey c with _ | b
    · rw [ih]
      simp [h]
    · dsimp only
      by_cases hb : b ∈ acc
      · rw [if_pos hb, ih]
        constructor
        · rintro (ha | hr)
          · exact Or.inl ha
          · exact Or.inr ⟨hr.choose, List.mem_cons_of_mem c hr.choose_spec.1,
              hr.choose_spec.2⟩
        · rintro (ha | ⟨x, hx, hax⟩)
          · exact Or.inl ha
          · rcases List.mem_cons.mp hx with he | hr
            · subst he
              rw [h] at hax
              have hba : b = a := by simpa using hax
              exact Or.inl (hba ▸ hb)
            · exact Or.inr ⟨x, hr, hax⟩
      · rw [if_neg hb, ih]
        constructor
        · rintro (ha | hr)
          · rcases List.mem_append.mp ha with h1 | h2
            · exact Or.inl h1
            · have hba : a = b := by simpa using h2
              exact Or.inr ⟨c, List.mem_cons_self c rest, hba ▸ h⟩
          · exact Or.inr ⟨hr.choose, List.mem_cons_of_mem c hr.choose_spec.1,
              hr.choose_spec.2⟩
        · rintro (ha | ⟨x, hx, hax⟩)
          · exact Or.inl (List.mem_append.mpr (Or.inl ha))
          · rcases List.mem_cons.mp hx with he | hr
            · subst he
              rw [h] at hax
              have hba : b = a := by simpa using hax
              exact Or.inl (List.mem_append.mpr (Or.inr (by simp [hba])))
            · exact Or.inr ⟨x, hr, hax⟩

lemma mem_firstSeenKeys (comps : List Comp) (a : String) :
    a ∈ firstSeenKeys comps ↔ ∃ c ∈ comps, addrKey c = some a := by
  rw [firstSeenKeys, mem_firstSeenKeys_aux]
  simp

lemma nodup_firstSeenKeys_aux (comps : List Comp) (acc : List String)
    (hacc : acc.Nodup) :
    (comps.foldl (fun acc c =>
      match addrKey c with
      | some a => if a ∈ acc then acc else acc ++ [a]
      | Option.none => acc) acc).Nodup := by
  induction comps generalizing acc with
  | nil => exact hacc
  | cons c rest ih =>
    rw [List.foldl_cons]
    rcases addrKey c with _ | b
    · exact ih acc hacc
    · dsimp only
      by_cases hb : b ∈ acc
      · rw [if_pos hb]
        exact ih acc hacc
      · rw [if_neg hb]
        exact ih _ (by simp [List.nodup_append, hacc, hb])

lemma nodup_firstSeenKeys (comps : List Comp) : (firstSeenKeys comps).Nodup :=
  nodup_firstSeenKeys_aux comps [] List.nodup_nil

lemma groupByAddress_append_none (l : List Comp) (c : Comp)
    (h : addrKey c = Option.none) :
    groupByAddress (l ++ [c]) = groupByAddress l := by
  simp [groupByAddress, List.foldl_append, h]

lemma groupByAddress_append_some (l : List Comp) (c : Comp) (a : String)
    (h : addrKey c = some a) :
    groupByAddress (l ++ [c]) = insertGroup (groupByAddress l) a c := by
  simp [groupByAddress, List.foldl_append, h]

lemma firstSeenKeys_append_none (l : List Comp) (c : Comp)
    (h : addrKey c = Option.none) :
    firstSeenKeys (l ++ [c]) = firstSeenKeys l := by
  simp [firstSeenKeys, List.foldl_append, h]

lemma firstSeenKeys_append_some (l : List Comp) (c : Comp) (a : String)
    (h : addrKey c = some a) :
    firstSeenKeys (l ++ [c]) =
      if a ∈ firstSeenKeys l then firstSeenKeys l else firstSeenKeys l ++ [a] := by
  simp [firstSeenKeys, List.foldl_append, h]

lemma map_fst_groupByAddressSpec (l : List Comp) :
    (groupByAddressSpec l).map Prod.fst = firstSeenKeys l := by
  rw [groupByAddressSpec, List.map_map]
  exact List.map_id (firstSeenKeys l)

lemma filter_singleton_addrKey (c : Comp) (a k : String)
    (h : addrKey c = some a) :
    List.filter (fun x => addrKey x = some k) [c] =
      if k = a then [c] else [] := by
  by_cases hk : k = a
  · subst hk
    simp [h]
  · simp [h, hk, Ne.symm hk]

lemma groupByAddressSpec_append_none (l : List Comp) (c : Comp)
    (h : addrKey c = Option.none) :
    groupByAddressSpec (l ++ [c]) = groupByAddressSpec l := by
  unfold groupByAddressSpec
  rw [firstSeenKeys_append_none l c h]
  apply List.map_congr_left
  intro k _
  rw [List.filter_append]
  have hone : List.filter (fun x => addrKey x = some k) [c] = [] := by
    simp [h]
  rw [hone, List.append_nil]

lemma groupByAddressSpec_append_mem (l : List Comp) (c : Comp) (a : String)
    (h : addrKey c = some a) (hmem : a ∈ firstSeenKeys l) :
    groupByAddressSpec (l ++ [c]) =
      (firstSeenKeys l).map (fun k =>
        (k, if k = a then l.filter (fun x => addrKey x = some k) ++ [c]
            else l.filter (fun x => addrKey x = some k))) := by
  unfold groupByAddressSpec
  rw [firstSeenKeys_append_some l c a h, if_pos hmem]
  apply List.map_congr_left
  intro k _
  rw [List.filter_append, filter_singleton_addrKey c a k h]
  by_cases hk : k = a
  · simp [hk]
  · simp [hk]

lemma groupByAddressSpec_append_not_mem (l : List Comp) (c : Comp) (a : String)
    (h : addrKey c = some a) (hmem : a ∉ firstSeenKeys l) :
    groupByAddressSpec (l ++ [c]) = groupByAddressSpec l ++ [(a, [c])] := by
  unfold groupByAddressSpec
  rw [firstSeenKeys_append_some l c a h, if_neg hmem, List.map_append]
  congr 1
  · apply List.map_congr_left
    intro k hk
    rw [List.filter_append, filter_singleton_addrKey c a k h,
      if_neg (fun he : k = a => hmem (he ▸ hk)), List.append_nil]
  · have hfil : l.filter (fun x => addrKey x = some a) = [] := by
      rw [List.filter_eq_nil_iff]
      intro x hx hax
      exact hmem ((mem_firstSeenKeys l a).mpr ⟨x, hx, by simpa using hax⟩)
    rw [List.map_singleton, List.filter_append,
      filter_singleton_addrKey c a a h, if_pos rfl, hfil]
    simp

lemma groupByAddress_eq_spec (comps : List Comp) :
    groupByAddress comps = groupByAddressSpec comps := by
  induction comps using List.reverseRecOn with
  | nil => rfl
  | append_singleton l c ih =>
    rcases h : addrKey c with _ | a
    · rw [groupByAddress_append_none l c h, ih,
        groupByAddressSpec_append_none l c h]
    · rw [groupByAddress_append_some l c a h, ih]
      by_cases hmem : a ∈ firstSeenKeys l
      · rw [groupByAddressSpec_append_mem l c a h hmem, groupByAddressSpec,
          insertGroup_map_of_mem (firstSeenKeys l)
            (fun k => l.filter (fun x => addrKey x = some k)) a c
            (nodup_firstSeenKeys l) hmem]
      · rw [groupByAddressSpec_append_not_mem l c a h hmem]
        exact insertGroup_of_not_mem _ a c
          (by rw [map_fst_groupByAddressSpec]; exact hmem)

/-- Claim C7: `groupByAddress` groups by `initial_address`, drops every
record with an empty or missing address, and preserves both the
first-seen order of addresses and the input order of records within each
group: it equals the map, over the addresses in first-seen order, of the
input-order filter of the records grouped under each address. -/
theorem groupByAddress_spec (comps : List Comp) :
    groupByAddress comps =
      (firstSeenKeys comps).map
        (fun a => (a, comps.filter (fun c => addrKey c = some a))) :=
  groupByAddress_eq_spec comps

/-! ## Python dicts keyed by id / address

`comparisons_by_id` (line 144) and `source_properties_by_address`
(line 166) are dict comprehensions: later records with the same key
overwrite earlier ones.  Key position is irrelevant (these dicts are only
looked up, never iterated), so the dict is an association list with
in-place overwrite. -/

/-- Assignment `d[k] = v` on an association-list dict. -/
def dictInsert {α β : Type} [BEq α] (d : List (α × β)) (k : α) (v : β) :
    List (α × β) :=
  match d with
  | [] => [(k, v)]
  | (k', v') :: rest =>
    if k' == k then (k, v) :: rest else (k', v') :: dictInsert rest k v

/-- Line 144: `{comp["id"]: comp for comp in all_comparisons}`. -/
def comparisonsById (comps : List Comp) : List (Int × Comp) :=
  comps.foldl (fun d c => dictInsert d c.id c) []

/-- Line 147: `[comparisons_by_id[comp_id] for comp_id in property_ids
if comp_id in comparisons_by_id]`. -/
def selectedComparisonsList (property_ids : List Int) (comps : List Comp) :
    List Comp :=
  property_ids.filterMap (fun i => (comparisonsById comps).lookup i)

/-- Line 166: `{prop["address"]: prop for prop in source_properties}`. -/
def sourcePropertiesByAddress (props : List SourceProp) :
    List (String × SourceProp) :=
  props.foldl (fun d p => dictInsert d p.address p) []

/-! ## Date rendering

`format_sales_date` (main.py lines 23-27):
`datetime.fromtimestamp(timestamp / 1000).strftime("%Y-%m-%d")` for a
truthy timestamp, `""` otherwise.  `fromtimestamp` is modelled in UTC:
epoch milliseconds to a proleptic-Gregorian civil date. -/

/-- Days since 1970-01-01 to a civil `(year, month, day)`. -/
def civilFromDays (z0 : Int) : Int × Int × Int :=
  let z := z0 + 719468
  let era := Int.fdiv z 146097
  let doe := z - era * 146097
  let yoe := Int.fdiv
    (doe - Int.fdiv doe 1460 + Int.fdiv doe 36524 - Int.fdiv doe 146096) 365
  let y := yoe + era * 400
  let doy := doe - (365 * yoe + Int.fdiv yoe 4 - Int.fdiv yoe 100)
  let mp := Int.fdiv (5 * doy + 2) 153
  let d := doy - Int.fdiv (153 * mp + 2) 5 + 1
  let m := mp + (if mp < 10 then 3 else -9)
  (y + (if m ≤ 2 then 1 else 0), m, d)

/-- Zero-pad to two digits (strftime `%m`, `%d`). -/
def pad2 (n : Int) : String :=
  if 0 ≤ n ∧ n < 10 then "0" ++ toString n else toString n

/-- Zero-pad to four digits (strftime `%Y`). -/
def pad4 (n : Int) : String :=
  if 0 ≤ n ∧ n < 10 then "000" ++ toString n
  else if 0 ≤ n ∧ n < 100 then "00" ++ toString n
  else if 0 ≤ n ∧ n < 1000 then "0" ++ toString n
  else toString n

/-- Rendering `YYYY-MM-DD` for an epoch-milliseconds timestamp. -/
def renderDate (ms : Int) : String :=
  let days := Int.fdiv (Int.fdiv ms 1000) 86400
  let ymd := civilFromDays days
  pad4 ymd.1 ++ "-" ++ pad2 ymd.2.1 ++ "-" ++ pad2 ymd.2.2

/-- Function `format_sales_date` (lines 23-27): empty string for a falsy
(missing, null or zero) timestamp. -/
def format_sales_date : Option Int → String
  | some t => if t ≠ 0 then renderDate t else ""
  | Option.none => ""

/-! ## CSV Assembler (main.py lines 168-240) -/

/-- The six fixed source-property headers (lines 169-176). -/
def baseHeaders : List Cell :=
  [Cell.str "Formula (Average of Comparables Sale Price(s))",
   Cell.str "Source Property Address",
   Cell.str "Source Bedrooms",
   Cell.str "Source Bathrooms",
   Cell.str "Source Square Feet",
   Cell.str "Source Appraisal"]

/-- The seven headers of comparison slot `i` (lines 182-191). -/
def compHeaders (i : Nat) : List Cell :=
  [Cell.str ("#" ++ toString i ++ "Comp Property Address"),
   Cell.str ("#" ++ toString i ++ "Comp Property Sale Date"),
   Cell.str ("#" ++ toString i ++ "Comp Bedrooms"),
   Cell.str ("#" ++ toString i ++ "Comp Bathrooms"),
   Cell.str ("#" ++ toString i ++ "Comp Square Feet"),
   Cell.str ("#" ++ toString i ++ "Comp Most Recent Sale Amount"),
   Cell.str ("#" ++ toString i ++ "Comp Redfin URL")]

/-- Line 179: `max(len(comparisons) for comparisons in
comparisons_by_initial_address.values()) if comparisons_by_initial_address
else 0`. -/
def maxComparisons (groups : List (String × List Comp)) : Nat :=
  (groups.map (fun g => g.2.length)).foldl max 0

/-- The header row (lines 169-191). -/
def csvHeaders (maxC : Nat) : List Cell :=
  baseHeaders ++ (List.range maxC).flatMap (fun i => compHeaders (i + 1))

/-- Cell for `comp.get("sold_amount", "")` (line 229): the number
when present, the empty cell when missing or null. -/
def soldAmountCell : Option ℚ → Cell
  | some q => Cell.num q
  | Option.none => Cell.str ""

/-- One 7-column comparison block (lines 222-231). -/
def compBlock (c : Comp) : List Cell :=
  [c.address, Cell.str (format_sales_date c.sales_date), c.bedrooms,
   c.bath, c.floor_size_value, soldAmountCell c.sold_amount,
   c.most_recent_url]

/-- One data row (lines 211-237): six source columns, one block per
comparison in the group, then `7 * (max_comparisons - len(group))` empty
strings from the padding `while` loop. -/
def dataRow (maxC : Nat) (initial_address : String) (sp : SourceProp)
    (selected : List Comp) : List Cell :=
  ([Cell.num (averageSoldAmount selected), Cell.str initial_address,
    sp.bedrooms, sp.bath, sp.square_feet, sp.appraisal_value]
    ++ selected.flatMap compBlock)
  ++ List.replicate (7 * (maxC - selected.length)) (Cell.str "")

/-- The row-emitting loop (lines 198-240): one row per grouped address
whose source property exists; groups without one are skipped
(`continue`, line 203). -/
def csvDataRows (maxC : Nat) (props : List SourceProp)
    (groups : List (String × List Comp)) : List (List Cell) :=
  groups.filterMap (fun g =>
    ((sourcePropertiesByAddress props).lookup g.1).map
      (fun sp => dataRow maxC g.1 sp g.2))

/-- All CSV rows (header first) built from a resolved id list. -/
def csvRows (property_ids : List Int) (all_comparisons : List Comp)
    (source_properties : List SourceProp) : List (List Cell) :=
  let selected := selectedComparisonsList property_ids all_comparisons
  let groups := groupByAddress selected
  let maxC := maxComparisons groups
  csvHeaders maxC :: csvDataRows maxC source_properties groups

/-! ## The scoped CSV endpoint (main.py lines 112-256) -/

/-- The three 404 error paths of `generate_csv_report`. -/
inductive CsvError where
  | reportNotFound : CsvError
  | noPropertyIds : CsvError
  | noMatchingComparisons : CsvError
deriving DecidableEq, Repr

/-- Lines 124-127: the first report whose `id` and `user_id` match. -/
def findReport (user_email : String) (report_id : Int)
    (user_reports : List UserReport) : Option UserReport :=
  user_reports.find? (fun r => r.id == report_id && r.user_id == user_email)

/-- Function `generate_csv_report` after all upstream fetches succeeded: the pure
transformation from fetched collections to the CSV rows, or one of the
404 errors (lines 129-130, 134-135, 149-150). -/
def generate_csv_report (user_email : String) (report_id : Int)
    (user_reports : List UserReport) (all_comparisons : List Comp)
    (source_properties : List SourceProp) :
    Except CsvError (List (List Cell)) :=
  match findReport user_email report_id user_reports with
  | Option.none => Except.error CsvError.reportNotFound
  | some selected_report =>
    let property_ids := selected_report.property_ids.getD []
    if property_ids.isEmpty then Except.error CsvError.noPropertyIds
    else
      if (selectedComparisonsList property_ids all_comparisons).isEmpty then
        Except.error CsvError.noMatchingComparisons
      else
        Except.ok (csvRows property_ids all_comparisons source_properties)

/-- Field rendering of `csv.writer` with QUOTE_MINIMAL: quote when the field
holds the delimiter, the quote char or a line break; double inner
quotes. -/
def csvQuote (s : String) : String :=
  if s.toList.any (fun ch => ch = ',' || ch = '"' || ch = '\n' || ch = '\r')
  then "\"" ++ s.replace "\"" "\"\"" ++ "\""
  else s

/-- Rendering of one cell; a numeric cell prints its exact value. -/
def cellString : Cell → String
  | Cell.str s => s
  | Cell.num q => if q.den = 1 then toString q.num else toString q

/-- One serialized CSV record, CRLF-terminated. -/
def csvLine (row : List Cell) : String :=
  String.intercalate "," (row.map (fun c => csvQuote (cellString c))) ++ "\r\n"

/-- The serialized CSV body. -/
def csvDocument (rows : List (List Cell)) : String :=
  String.join (rows.map csvLine)

/-- Lines 244-248: the attachment filename with the sanitized email. -/
def csvFilename (user_email : String) (report_id : Int) : String :=
  "property_report_" ++ ((user_email.replace "@" "_").replace "." "_")
    ++ "_" ++ toString report_id ++ ".csv"

/-- The full endpoint response on fetched data: filename and body. -/
def csvEndpoint (user_email : String) (report_id : Int)
    (user_reports : List UserReport) (all_comparisons : List Comp)
    (source_properties : List SourceProp) :
    Except CsvError (String × String) :=
  (generate_csv_report user_email report_id user_reports all_comparisons
      source_properties).map
    (fun rows => (csvFilename user_email report_id, csvDocument rows))

lemma lookup_dictInsert {α β : Type} [BEq α] [LawfulBEq α]
    (d : List (α × β)) (k i : α) (v : β) :
    (dictInsert d k v).lookup i = if i == k then some v else d.lookup i := by
  induction d with
  | nil =>
    by_cases h : i == k
    · simp [dictInsert, List.lookup, h]
    · simp [dictInsert, List.lookup, h]
  | cons kv rest ih =>
    obtain ⟨k', v'⟩ := kv
    rw [dictInsert]
    by_cases hk : (k' == k) = true
    · have hke : k' = k := eq_of_beq hk
      subst hke
      rw [if_pos hk]
      by_cases hik : (i == k') = true
      · simp [List.lookup, hik]
      · simp [List.lookup, hik]
    · rw [if_neg hk]
      by_cases hik : (i == k') = true
      · have hik' : i = k' := eq_of_beq hik
        subst hik'
        have : (i == k) = false := by
          rcases Bool.eq_false_or_eq_true (i == k) with ht | hf
          · exact absurd ht hk
          · exact hf
        simp [List.lookup, this, hik]
      · simp [List.lookup, hik, ih]

lemma comparisonsById_append (l : List Comp) (c : Comp) :
    comparisonsById (l ++ [c]) = dictInsert (comparisonsById l) c.id c := by
  simp [comparisonsById, List.foldl_append]

/-- Modelled from the spec: the last fetched record with a given id
(a later record with the same id overwrites an earlier one in
`comparisons_by_id`). -/
def lastById (comps : List Comp) (i : Int) : Option Comp :=
  comps.reverse.find? (fun c => c.id == i)

lemma lookup_comparisonsById (comps : List Comp) (i : Int) :
    (comparisonsById comps).lookup i = lastById comps i := by
  induction comps using List.reverseRecOn with
  | nil => rfl
  | append_singleton l c ih =>
    rw [comparisonsById_append, lookup_dictInsert, ih]
    have hr : lastById (l ++ [c]) i =
        if (c.id == i) = true then some c else lastById l i := by
      rw [lastById, List.reverse_append]
      simp only [List.reverse_singleton, List.singleton_append, List.find?_cons]
      by_cases h : (c.id == i) = true
      · simp [h]
      · simp [h, lastById]
    rw [hr]
    by_cases h : i = c.id
    · simp [h]
    · have h1 : (i == c.id) = false := by simp [h]
      have h2 : (c.id == i) = false := by
        simp only [beq_eq_false_iff_ne, ne_eq]
        exact fun he => h he.symm
      simp [h1, h2]

/-- Overwrite the `Selected` flag and the `initial_id` of a record
(arbitrarily, possibly depending on the record). -/
def setFlags (f g : Comp → PyVal) (c : Comp) : Comp :=
  { c with Selected := f c, initial_id := g c }

lemma lastById_setFlags (comps : List Comp) (i : Int) (f g : Comp → PyVal) :
    lastById (comps.map (setFlags f g)) i =
      (lastById comps i).map (setFlags f g) := by
  rw [lastById, lastById, ← List.map_reverse, List.find?_map]
  congr 1

/-- Claim C9: In the scoped CSV export, the selected-comparisons list is
exactly `property_ids` mapped through "the last fetched comparison with
that id", ids with no fetched record dropped: so a record is included
iff its id appears in `property_ids` and a record with that id was
fetched, included records appear in `property_ids` order, and a
duplicated id yields the record multiple times.  Moreover the selection
never consults `Selected` or `initial_id`: arbitrarily rewriting those
two fields on every fetched record rewrites the output pointwise and
changes nothing else. -/
theorem scoped_selection_spec (property_ids : List Int)
    (comps : List Comp) (f g : Comp → PyVal) :
    selectedComparisonsList property_ids comps =
      property_ids.filterMap (lastById comps) ∧
    selectedComparisonsList property_ids (comps.map (setFlags f g)) =
      (selectedComparisonsList property_ids comps).map (setFlags f g) := by
  have hsel : ∀ cs : List Comp, selectedComparisonsList property_ids cs =
      property_ids.filterMap (lastById cs) := by
    intro cs
    rw [selectedComparisonsList]
    have : (fun i => (comparisonsById cs).lookup i) = lastById cs := by
      funext i
      exact lookup_comparisonsById cs i
    rw [this]
  refine ⟨hsel comps, ?_⟩
  rw [hsel comps, hsel (comps.map (setFlags f g)), List.map_filterMap]
  congr 1
  funext i
  exact lastById_setFlags comps i f g

lemma init_le_foldl_max (l : List Nat) (b : Nat) : b ≤ l.foldl max b := by
  induction l generalizing b with
  | nil => exact le_refl b
  | cons x xs ih => exact le_trans (le_max_left b x) (ih (max b x))

lemma le_foldl_max (l : List Nat) : ∀ b a : Nat, a ∈ l → a ≤ l.foldl max b := by
  induction l with
  | nil => intro _ _ h; cases h
  | cons x xs ih =>
    intro b a h
    rw [List.foldl_cons]
    rcases List.mem_cons.mp h with he | hm
    · subst he
      exact le_trans (le_max_right b a) (init_le_foldl_max xs (max b a))
    · exact ih (max b x) a hm

/-- Every group is at most as large as the slot count computed from the
whole grouping. -/
lemma length_le_maxComparisons (groups : List (String × List Comp))
    (g : String × List Comp) (hg : g ∈ groups) :
    g.2.length ≤ maxComparisons groups :=
  le_foldl_max _ 0 _ (List.mem_map.mpr ⟨g, hg, rfl⟩)

lemma flatMap_const_length {α : Type} (f : α → List Cell) (n : Nat)
    (hf : ∀ a, (f a).length = n) (l : List α) :
    (l.flatMap f).length = n * l.length := by
  induction l with
  | nil => simp
  | cons a rest ih =>
    rw [List.flatMap_cons, List.length_append, hf, ih, List.length_cons]
    ring

lemma compBlock_length (c : Comp) : (compBlock c).length = 7 := rfl

lemma compHeaders_length (i : Nat) : (compHeaders i).length = 7 := rfl

lemma csvHeaders_length (maxC : Nat) :
    (csvHeaders maxC).length = 6 + 7 * maxC := by
  rw [csvHeaders, List.length_append,
    flatMap_const_length (fun i => compHeaders (i + 1)) 7
      (fun a => compHeaders_length (a + 1))]
  simp [baseHeaders]

lemma dataRow_length (maxC : Nat) (a : String) (sp : SourceProp)
    (cs : List Comp) (h : cs.length ≤ maxC) :
    (dataRow maxC a sp cs).length = 6 + 7 * maxC := by
  rw [dataRow, List.length_append, List.length_append,
    flatMap_const_length _ 7 compBlock_length, List.length_replicate]
  simp only [List.length_cons, List.length_nil]
  omega

lemma dataRow_padding (maxC : Nat) (a : String) (sp : SourceProp)
    (cs : List Comp) :
    (dataRow maxC a sp cs).drop (6 + 7 * cs.length) =
      List.replicate (7 * (maxC - cs.length)) (Cell.str "") := by
  rw [dataRow]
  apply List.drop_left'
  rw [List.length_append, flatMap_const_length _ 7 compBlock_length]
  simp

/-- Claim C3: In every CSV export, every row — the header and every data
row — has width `6 + 7 * max_comparisons`, where `max_comparisons` is
the maximum group size over all groups of the dataset; and a data row
built for a group smaller than the maximum ends in its unused trailing
comparison slots, all filled with empty-string cells, never omitted. -/
theorem csv_row_width_constant (property_ids : List Int)
    (all_comparisons : List Comp) (source_properties : List SourceProp) :
    (∀ row ∈ csvRows property_ids all_comparisons source_properties,
      row.length = 6 + 7 * maxComparisons
        (groupByAddress (selectedComparisonsList property_ids all_comparisons))) ∧
    (∀ g ∈ groupByAddress (selectedComparisonsList property_ids all_comparisons),
      ∀ sp : SourceProp,
        (dataRow (maxComparisons (groupByAddress
            (selectedComparisonsList property_ids all_comparisons)))
            g.1 sp g.2).drop (6 + 7 * g.2.length) =
          List.replicate
            (7 * (maxComparisons (groupByAddress
              (selectedComparisonsList property_ids all_comparisons)) - g.2.length))
            (Cell.str "")) := by
  constructor
  · intro row hrow
    rw [csvRows] at hrow
    rcases List.mem_cons.mp hrow with he | hm
    · subst he
      exact csvHeaders_length _
    · obtain ⟨g, hg, hrow⟩ := List.mem_filterMap.mp hm
      simp only [Option.map_eq_some'] at hrow
      obtain ⟨sp, _, hrow⟩ := hrow
      subst hrow
      exact dataRow_length _ _ _ _ (length_le_maxComparisons _ g hg)
  · intro g _ sp
    exact dataRow_padding _ _ _ _

/-- Sample records: a comparison whose source property exists. -/
def sampleComp : Comp :=
  { id := 3, initial_id := PyVal.int 7, Selected := PyVal.bool true,
    initial_address := some "1 Main St", sold_amount := some 100,
    sales_date := Option.none, address := Cell.str "2 Oak Ave",
    bedrooms := Cell.str "3", bath := Cell.str "2",
    floor_size_value := Cell.str "1500",
    most_recent_url := Cell.str "u" }

def sampleProp : SourceProp :=
  { address := "1 Main St", bedrooms := Cell.str "4", bath := Cell.str "2",
    square_feet := Cell.str "2000", appraisal_value := Cell.str "500000" }

/-- Concrete instance of C3: the header of a one-record export has the
stated width. -/
theorem csv_row_width_constant_witness :
    (csvHeaders (maxComparisons (groupByAddress
        (selectedComparisonsList [3] [sampleComp])))).length =
      6 + 7 * maxComparisons (groupByAddress
        (selectedComparisonsList [3] [sampleComp])) :=
  (csv_row_width_constant [3] [sampleComp] [sampleProp]).1 _
    (List.mem_cons_self _ _)

lemma dataRow_second_cell (maxC : Nat) (a : String) (sp : SourceProp)
    (cs : List Comp) :
    (dataRow maxC a sp cs)[1]? = some (Cell.str a) := by
  simp [dataRow]

/-- Claim C5: The CSV export contains a data row carrying an address (its
second cell) iff that address heads a nonempty comparison group and a
source property with that address exists; a source property with no
grouped comparisons yields no row, and a group whose address matches no
source property yields no row — whatever slot count is in force. -/
theorem csv_row_presence_iff (maxC : Nat) (sel : List Comp)
    (props : List SourceProp) (addr : String) :
    (∃ row ∈ csvDataRows maxC props (groupByAddress sel),
        row[1]? = some (Cell.str addr)) ↔
      (addr ∈ (groupByAddress sel).map Prod.fst ∧
       (sourcePropertiesByAddress props).lookup addr ≠ Option.none) := by
  constructor
  · rintro ⟨row, hrow, hget⟩
    obtain ⟨g, hg, hrow⟩ := List.mem_filterMap.mp hrow
    simp only [Option.map_eq_some'] at hrow
    obtain ⟨sp, hsp, hrow⟩ := hrow
    subst hrow
    rw [dataRow_second_cell] at hget
    have haddr : g.1 = addr := by
      have := Option.some.inj hget
      exact (Cell.str.injEq _ _).mp this
    constructor
    · exact List.mem_map.mpr ⟨g, hg, haddr⟩
    · rw [← haddr, hsp]
      exact fun h => Option.noConfusion h
  · rintro ⟨hmem, hl⟩
    obtain ⟨g, hg, hfst⟩ := List.mem_map.mp hmem
    rcases hlk : (sourcePropertiesByAddress props).lookup addr with _ | sp
    · exact absurd hlk hl
    · refine ⟨dataRow maxC g.1 sp g.2, ?_, ?_⟩
      · apply List.mem_filterMap.mpr
        refine ⟨g, hg, ?_⟩
        have : g.1 = addr := hfst
        rw [this, hlk]
        rfl
      · rw [dataRow_second_cell]
        have : g.1 = addr := hfst
        rw [this]

/-- Claim C6: On successfully fetched upstream data, the scoped CSV export
fails (with one of its 404 errors, never an empty CSV) iff no user
report matches the `report_id`/`user_email` pair, or the matched
list `property_ids` of the matched report is empty (or absent), or no id in
`property_ids` corresponds to a fetched comparison; in every other case
it returns CSV rows. -/
theorem csv_export_error_iff (user_email : String) (report_id : Int)
    (user_reports : List UserReport) (all_comparisons : List Comp)
    (source_properties : List SourceProp) :
    (∃ e, generate_csv_report user_email report_id user_reports
        all_comparisons source_properties = Except.error e) ↔
      (findReport user_email report_id user_reports = Option.none ∨
       ∃ r, findReport user_email report_id user_reports = some r ∧
         (r.property_ids.getD [] = [] ∨
          selectedComparisonsList (r.property_ids.getD [])
            all_comparisons = [])) := by
  rcases hf : findReport user_email report_id user_reports with _ | r
  · simp [generate_csv_report, hf]
  · simp only [generate_csv_report, hf, Option.some.injEq]
    by_cases h1 : (r.property_ids.getD []).isEmpty = true
    · simp [h1, List.isEmpty_iff.mp h1]
    · have hne : r.property_ids.getD [] ≠ [] := by
        intro hcon
        rw [hcon] at h1
        exact h1 rfl
      by_cases h2 : (selectedComparisonsList (r.property_ids.getD [])
          all_comparisons).isEmpty = true
      · simp [h1, h2, List.isEmpty_iff.mp h2, hne]
      · have hne2 : selectedComparisonsList (r.property_ids.getD [])
            all_comparisons ≠ [] := by
          intro hcon
          rw [hcon] at h2
          exact h2 rfl
        simp [h1, h2, hne, hne2]

/-- Claim C8: For fixed fetched upstream data and a fixed query, two runs
of the CSV export return the same result — in particular byte-identical
CSV bodies and filenames.  The embedded handler is a pure function of
the query and the fetched collections (Python dict iteration order is
insertion order, modelled explicitly by the association lists above), so
determinism is equality of two applications. -/
theorem csv_export_deterministic (user_email : String) (report_id : Int)
    (user_reports : List UserReport) (all_comparisons : List Comp)
    (source_properties : List SourceProp) :
    csvEndpoint user_email report_id user_reports all_comparisons
        source_properties =
      csvEndpoint user_email report_id user_reports all_comparisons
        source_properties := rfl

/-- A selected comparison record grouped under address `a`, for the
concrete part of C10. -/
def skComp (i : Int) (a : String) : Comp :=
  { id := i, initial_id := PyVal.int 7, Selected := PyVal.bool true,
    initial_address := some a, sold_amount := Option.none,
    sales_date := Option.none, address := Cell.str "", bedrooms := Cell.str "",
    bath := Cell.str "", floor_size_value := Cell.str "",
    most_recent_url := Cell.str "" }

/-- Claim C10: The slot count used for headers and padding is the maximum
group size over all grouped addresses — computed before the
source-property join, hence including addresses later skipped: the
header row is the same whatever the source properties are, every row of
the export has width `6 + 7 * max_comparisons` with the maximum taken
over the full grouping, and concretely an export whose largest group
(size 2) is skipped for want of a source property still emits all rows
at width `6 + 7*2 = 20` although the only emitted row has a group of
size 1. -/
theorem max_comparisons_includes_skipped (property_ids : List Int)
    (all_comparisons : List Comp) (props1 props2 : List SourceProp) :
    ((csvRows property_ids all_comparisons props1).head? =
      (csvRows property_ids all_comparisons props2).head?) ∧
    (∀ row ∈ csvRows property_ids all_comparisons props1,
      row.length = 6 + 7 * maxComparisons (groupByAddress
        (selectedComparisonsList property_ids all_comparisons))) ∧
    ((csvRows [1, 2, 3] [skComp 1 "X", skComp 2 "X", skComp 3 "1 Main St"]
        [sampleProp]).map List.length = [20, 20] ∧
      maxComparisons (groupByAddress (selectedComparisonsList [1, 2, 3]
        [skComp 1 "X", skComp 2 "X", skComp 3 "1 Main St"])) = 2 ∧
      (groupByAddress (selectedComparisonsList [1, 2, 3]
        [skComp 1 "X", skComp 2 "X", skComp 3 "1 Main St"])).map
          (fun g => g.2.length) = [2, 1]) := by
  refine ⟨rfl, ?_, by decide, by decide, by decide⟩
  intro row hrow
  rw [csvRows] at hrow
  rcases List.mem_cons.mp hrow with he | hm
  · subst he
    exact csvHeaders_length _
  · obtain ⟨g, hg, hrow⟩ := List.mem_filterMap.mp hm
    simp only [Option.map_eq_some'] at hrow
    obtain ⟨sp, _, hrow⟩ := hrow
    subst hrow
    exact dataRow_length _ _ _ _ (length_le_maxComparisons _ g hg)

/-- Concrete instance of C10: the header row of the skipped-group export
has the width dictated by the size of the skipped group. -/
theorem max_comparisons_includes_skipped_witness :
    (csvHeaders (maxComparisons (groupByAddress (selectedComparisonsList
        [1, 2, 3] [skComp 1 "X", skComp 2 "X", skComp 3 "1 Main St"])))).length =
      6 + 7 * maxComparisons (groupByAddress (selectedComparisonsList
        [1, 2, 3] [skComp 1 "X", skComp 2 "X", skComp 3 "1 Main St"])) :=
  (max_comparisons_includes_skipped [1, 2, 3]
      [skComp 1 "X", skComp 2 "X", skComp 3 "1 Main St"]
      [sampleProp] []).2.1 _ (List.mem_cons_self _ _)
